import Mathlib

/-!
Verification of the `highs` Go package, a wrapper around the HiGHS
linear-programming engine.  The definitions below shallowly embed the
package's pure logic: status classification and slice conversion
(`utils.go`), the option accessors and `RawModel.Solve` of the low-level
API file, and the sparse-triple-to-CSR converter exercised by
`TestMakeSparseMatrix`.  The engine itself is an external collaborator and
is modelled by an `Engine` record of the values its C calls return.
Float64 values are never computed on by this layer, only moved, so they
are represented by an opaque type parameter `α`.
-/

namespace Highs

/-- Engine status codes, from the HiGHS C API header (`highs_c_api.h`):
`kHighsStatusError = -1`, `kHighsStatusOk = 0`, `kHighsStatusWarning = 1`. -/
def kHighsStatusError : Int := -1

/-- The Ok status code of the HiGHS C API. -/
def kHighsStatusOk : Int := 0

/-- The Warning status code of the HiGHS C API. -/
def kHighsStatusWarning : Int := 1

/-- A HighsStatus wraps a kHighsStatus value, which may be an error or just a
warning (`utils.go`).  `CName` is the name of the HiGHS function that
returned a non-Ok status, `GoName` the name of the calling Go function. -/
structure HighsStatus where
  Status : Int
  CName : String
  GoName : String
  deriving DecidableEq

/-- Error renders a HighsStatus as a string (`utils.go` lines 20-29).  The
source returns the raw format template: no `fmt.Sprintf` substitution of
`CName` into the `%s` verb ever happens. -/
def HighsStatus.Error (e : HighsStatus) : String :=
  if e.Status = kHighsStatusError then "%s failed with an error"
  else if e.Status = kHighsStatusWarning then "%s failed with a warning"
  else "%s failed with an unknown status"

/-- IsWarning returns true if the HighsStatus is merely a warning
(`utils.go` lines 32-34). -/
def HighsStatus.IsWarning (e : HighsStatus) : Bool :=
  e.Status == kHighsStatusWarning

/-- newHighsStatus constructs a HighsStatus, or returns nil (`none`) if the
status is `kHighsStatusOk` (`utils.go` lines 38-47). -/
def newHighsStatus (st : Int) (hName gName : String) : Option HighsStatus :=
  if st = kHighsStatusOk then none
  else some { Status := st, CName := hName, GoName := gName }

/-- convertSlice converts a slice from one numeric type to another, element
by element (`utils.go` lines 56-62).  The Go element conversion `T(f)` is
passed as the function `cast`.  `Solve` instantiates it at
`convertSlice[float64, C.double]`: both types are IEEE-754 binary64, so
there the conversion is the identity on values. -/
def convertSlice {F T : Type} (cast : F → T) (xs : List F) : List T :=
  xs.map cast

/-- SetBoolOption assigns a Boolean value to a named option (low-level API
file, lines 95-115).  `engineStatus` is the status code returned by
`Highs_setBoolOptionValue`; the option name and value are marshalled and
forwarded to the engine unchanged, so only the classification of the
returned status is modelled. -/
def RawModel.SetBoolOption (engineStatus : Int) (opt : String) (v : Bool) : Option String :=
  if engineStatus = kHighsStatusOk then none
  else if engineStatus = kHighsStatusError then some ("SetBoolOption error")
  else if engineStatus = kHighsStatusWarning then some ("SetBoolOption warning")
  else some ("SetBoolOption unknown status")

/-- SetIntOption assigns an integer value to a named option (low-level API
file, lines 118-135). -/
def RawModel.SetIntOption (engineStatus : Int) (opt : String) (v : Int) : Option String :=
  if engineStatus = kHighsStatusOk then none
  else if engineStatus = kHighsStatusError then some ("SetIntOption error")
  else if engineStatus = kHighsStatusWarning then some ("SetIntOption warning")
  else some ("SetIntOption unknown status")

/-- SetFloat64Option assigns a floating-point value to a named option
(low-level API file, lines 138-155). -/
def RawModel.SetFloat64Option {α : Type} (engineStatus : Int) (opt : String) (v : α) :
    Option String :=
  if engineStatus = kHighsStatusOk then none
  else if engineStatus = kHighsStatusError then some ("SetFloat64Option error")
  else if engineStatus = kHighsStatusWarning then some ("SetFloat64Option warning")
  else some ("SetFloat64Option unknown status")

/-- SetStringOption assigns a string value to a named option (low-level API
file, lines 158-176). -/
def RawModel.SetStringOption (engineStatus : Int) (opt : String) (v : String) : Option String :=
  if engineStatus = kHighsStatusOk then none
  else if engineStatus = kHighsStatusError then some ("SetStringOption error")
  else if engineStatus = kHighsStatusWarning then some ("SetStringOption warning")
  else some ("SetStringOption unknown status")

/-- GetBoolOption returns the Boolean value of a named option (low-level API
file, lines 179-200).  `val` is the `HighsInt` the engine wrote into the
output parameter; the Go source turns it into a bool via `val != 0` and
returns `false` with an error on every non-Ok status. -/
def RawModel.GetBoolOption (engineStatus : Int) (opt : String) (val : Int) :
    Bool × Option String :=
  if engineStatus = kHighsStatusOk then (val != 0, none)
  else if engineStatus = kHighsStatusError then (false, some ("GetBoolOption error"))
  else if engineStatus = kHighsStatusWarning then (false, some ("GetBoolOption warning"))
  else (false, some ("GetBoolOption unknown status"))

/-- GetIntOption returns the integer value of a named option (low-level API
file, lines 203-220); `0` accompanies every non-Ok status. -/
def RawModel.GetIntOption (engineStatus : Int) (opt : String) (val : Int) :
    Int × Option String :=
  if engineStatus = kHighsStatusOk then (val, none)
  else if engineStatus = kHighsStatusError then (0, some ("GetIntOption error"))
  else if engineStatus = kHighsStatusWarning then (0, some ("GetIntOption warning"))
  else (0, some ("GetIntOption unknown status"))

/-- GetFloat64Option returns the floating-point value of a named option
(low-level API file, lines 223-240); Go's `0.0` on the non-Ok paths is
modelled by `default`. -/
def RawModel.GetFloat64Option {α : Type} [Inhabited α] (engineStatus : Int) (opt : String)
    (val : α) : α × Option String :=
  if engineStatus = kHighsStatusOk then (val, none)
  else if engineStatus = kHighsStatusError then (default, some ("GetFloat64Option error"))
  else if engineStatus = kHighsStatusWarning then (default, some ("GetFloat64Option warning"))
  else (default, some ("GetFloat64Option unknown status"))

/-- GetStringOption returns the string value of a named option (low-level
API file, lines 245-266); the empty string accompanies every non-Ok
status. -/
def RawModel.GetStringOption (engineStatus : Int) (opt : String) (val : String) :
    String × Option String :=
  if engineStatus = kHighsStatusOk then (val, none)
  else if engineStatus = kHighsStatusError then ("", some ("GetStringOption error"))
  else if engineStatus = kHighsStatusWarning then ("", some ("GetStringOption warning"))
  else ("", some ("GetStringOption unknown status"))

/-- Modelled from the spec: the wrapper's `ModelStatus` enum is defined in a
source file absent from this snapshot (only the `Status` field of
`RawSolution` and the `Optimal` comparisons in the tests remain).  Spec §3
gives the enum as Optimal, Infeasible, Unbounded, and a catch-all for the
other non-optimal terminal states. -/
inductive ModelStatus where
  | Optimal
  | Infeasible
  | Unbounded
  | Other
  deriving DecidableEq

/-- Raw termination-status code for an optimal solve, from the HiGHS C API
header: `kHighsModelStatusOptimal = 7`. -/
def kHighsModelStatusOptimal : Int := 7

/-- Raw termination-status code for an infeasible model
(`kHighsModelStatusInfeasible = 8`). -/
def kHighsModelStatusInfeasible : Int := 8

/-- Raw termination-status code for an unbounded model
(`kHighsModelStatusUnbounded = 10`). -/
def kHighsModelStatusUnbounded : Int := 10

/-- Modelled from the spec: `convertHighsModelStatus` is called by `Solve`
but defined in a source file absent from this snapshot.  Spec §4.5: it maps
the engine's raw termination-status integer to the Status enum, sending
every unmapped code to the catch-all `Other`, never silently to
`Optimal`. -/
def convertHighsModelStatus (st : Int) : ModelStatus :=
  if st = kHighsModelStatusOptimal then ModelStatus.Optimal
  else if st = kHighsModelStatusInfeasible then ModelStatus.Infeasible
  else if st = kHighsModelStatusUnbounded then ModelStatus.Unbounded
  else ModelStatus.Other

/-- Modelled from the spec: the `BasisStatus` enum is defined in a source
file absent from this snapshot; spec §3 lists Basic and the at-bound
states, and the tests use `Basic`, `Lower` and `Upper`.  It only occurs
here as a carrier type for `RawSolution` fields. -/
inductive BasisStatus where
  | Lower
  | Basic
  | Upper
  | Zero
  | Nonbasic
  deriving DecidableEq

/-- A RawSolution encapsulates the values returned by the HiGHS solvers
(low-level API file, lines 270-280). -/
structure RawSolution (α : Type) where
  Status : ModelStatus
  ColumnPrimal : List α
  RowPrimal : List α
  ColumnDual : List α
  RowDual : List α
  ColumnBasis : List BasisStatus
  RowBasis : List BasisStatus
  Objective : α
  deriving DecidableEq

/-- The Go zero value `RawSolution{}`: empty slices, the zero objective
(modelled by `default`) and the zero enum value (the unset, non-optimal
state, which the spec's four-variant status taxonomy folds into
`Other`). -/
def emptyRawSolution {α : Type} [Inhabited α] : RawSolution α :=
  { Status := ModelStatus.Other, ColumnPrimal := [], RowPrimal := [],
    ColumnDual := [], RowDual := [], ColumnBasis := [], RowBasis := [],
    Objective := default }

/-- The external engine collaborator, modelled as the values its C calls
return during one `Solve`: the status returned by `Highs_run`, the raw
model status, the column and row counts, the status of `Highs_getSolution`
and the vectors it writes into the supplied buffers. -/
structure Engine (α : Type) where
  runStatus : Int
  modelStatus : Int
  numCol : Nat
  numRow : Nat
  getSolutionStatus : Int
  colValue : List α
  colDual : List α
  rowValue : List α
  rowDual : List α
  deriving DecidableEq

/-- Outcome of `Solve`: either a Go runtime panic, or a returned
`(*RawSolution, error)` pair.  The pointer is never nil in the source, so
the solution is carried directly. -/
inductive SolveOutcome (α : Type) where
  | panics
  | returns (soln : RawSolution α) (err : Option String)
  deriving DecidableEq

/-- Solve solves a model (low-level API file, lines 345-385).  After a
successful `Highs_run` the source takes `&colValue[0]` and `&rowValue[0]`
of buffers allocated with `make([]C.double, nc)` and `make([]C.double,
nr)`; when `nc = 0` or `nr = 0` that indexes an empty slice and panics
before `Highs_getSolution` can be called.  On the warning and error paths
of `Highs_run`, and on every non-Ok path of `Highs_getSolution`, the
zero-value `&RawSolution{}` is returned together with an error; the basis
and objective fields are never populated by this function. -/
def RawModel.Solve {α : Type} [Inhabited α] (e : Engine α) : SolveOutcome α :=
  if e.runStatus = kHighsStatusOk then
    if e.numCol = 0 ∨ e.numRow = 0 then SolveOutcome.panics
    else if e.getSolutionStatus = kHighsStatusOk then
      SolveOutcome.returns
        { Status := convertHighsModelStatus e.modelStatus
          ColumnPrimal := convertSlice (fun a => a) e.colValue
          RowPrimal := convertSlice (fun a => a) e.rowValue
          ColumnDual := convertSlice (fun a => a) e.colDual
          RowDual := convertSlice (fun a => a) e.rowDual
          ColumnBasis := []
          RowBasis := []
          Objective := default } none
    else if e.getSolutionStatus = kHighsStatusWarning then
      SolveOutcome.returns emptyRawSolution (some ("Highs_getSolution failed with a warning"))
    else if e.getSolutionStatus = kHighsStatusError then
      SolveOutcome.returns emptyRawSolution (some ("Highs_getSolution failed with an error"))
    else
      SolveOutcome.returns emptyRawSolution
        (some ("Highs_getSolution failed with an unknown status"))
  else if e.runStatus = kHighsStatusWarning then
    SolveOutcome.returns emptyRawSolution (some ("model failed with a warning"))
  else if e.runStatus = kHighsStatusError then
    SolveOutcome.returns emptyRawSolution (some ("model failed with an error"))
  else
    SolveOutcome.returns emptyRawSolution (some ("model failed with an unknown status"))

/-- Modelled from the spec: the `Nonzero` triple type is defined in a
source file absent from this snapshot (spec §3).  Row and column are Go
`int`s, modelled by `Int` so that negative indices are representable; the
coefficient is a float64, modelled by the opaque type `α`. -/
structure Nonzero (α : Type) where
  row : Int
  col : Int
  value : α
  deriving DecidableEq

/-- Modelled from the spec: §7's StructuralError, the local error reported
before any engine interaction. -/
structure StructuralError where
  msg : String
  deriving DecidableEq

/-- Index of a triple along the compressed axis: the row for CSR
(`colMajor = false`), the column for CSC (`colMajor = true`). -/
def Nonzero.compressed {α : Type} (colMajor : Bool) (t : Nonzero α) : Int :=
  if colMajor then t.col else t.row

/-- Index of a triple along the free axis (the axis that is not
compressed). -/
def Nonzero.free {α : Type} (colMajor : Bool) (t : Nonzero α) : Int :=
  if colMajor then t.row else t.col

/-- An index that spec §4.1 rejects: a negative row or column index, or a
compressed-axis index at or beyond the declared dimension. -/
def badIndex {α : Type} (colMajor : Bool) (dim : Nat) (t : Nonzero α) : Bool :=
  decide (t.row < 0) || decide (t.col < 0) ||
    decide ((dim : Int) ≤ t.compressed colMajor)

/-- The triples whose compressed-axis index is `i`, in the order they were
supplied. -/
def axisEntries {α : Type} (colMajor : Bool) (nz : List (Nonzero α)) (i : Nat) :
    List (Nonzero α) :=
  nz.filter fun t => t.compressed colMajor == (i : Int)

/-- Modelled from the spec: `nonzerosToCSR` is defined in a source file
absent from this snapshot; only its test, `TestMakeSparseMatrix`, remains.
Spec §4.1: group the triples by the compressed axis stably — a counting
pass, a prefix sum for `start`, and a placement pass, "or any algorithm
yielding the same stable grouping" — and fail with a StructuralError on a
negative or out-of-range index.  Two departures from the spec's wording,
both fixed by the repository's own test: `start` has length `dim`, the
final offset (the nonzero count, which the engine receives separately)
being omitted — the test expects `start = {0, 1, 3}` for three rows — and
the declared dimension, which the Go signature infers from the triples, is
the explicit parameter `dim` here (the test corresponds to `dim = 3`). -/
def nonzerosToCSR {α : Type} (nz : List (Nonzero α)) (colMajor : Bool) (dim : Nat) :
    Except StructuralError (List Nat × List Int × List α) :=
  if nz.any (badIndex colMajor dim) then
    Except.error { msg := "matrix index out of range" }
  else
    Except.ok
      ((List.range dim).map fun i =>
        ((List.range i).map fun j => (axisEntries colMajor nz j).length).sum,
       ((List.range dim).map fun i =>
        (axisEntries colMajor nz i).map fun t => t.free colMajor).flatten,
       ((List.range dim).map fun i =>
        (axisEntries colMajor nz i).map fun t => t.value).flatten)

/-- Engine model-construction calls, recorded so that "no engine call is
made" on a failed conversion (spec §7) is a statable property. -/
inductive EngineOp (α : Type) where
  | createHandle
  | loadModel (start : List Nat) (index : List Int) (value : List α)
  deriving DecidableEq

/-- Modelled from the spec: §4.3's adapter, step 3 (convert the
coefficients via the converter) followed by step 4 (push the arrays into a
freshly allocated handle).  The second component records the engine calls
performed: none when the converter fails. -/
def ToRawModel {α : Type} (nz : List (Nonzero α)) (colMajor : Bool) (dim : Nat) :
    Except StructuralError (List Nat × List Int × List α) × List (EngineOp α) :=
  match nonzerosToCSR nz colMajor dim with
  | Except.error e => (Except.error e, [])
  | Except.ok csr =>
      (Except.ok csr, [EngineOp.createHandle, EngineOp.loadModel csr.1 csr.2.1 csr.2.2])

/-- Read a `start` offset with the convention that the offset one past the
last compressed index — omitted from the produced `start` array — is the
total number of nonzeros. -/
def boundary (start : List Nat) (nnz : Nat) (i : Nat) : Nat :=
  (start[i]?).getD nnz

/-- The coefficient matrix of `TestMakeSparseMatrix`, with the float64
values 1.0, 1.0, 2.0, 3.0, 2.0 represented by the integers 1, 1, 2, 3, 2
(this layer only moves the values, never computes on them). -/
def testNonzeros : List (Nonzero Int) :=
  [⟨0, 1, 1⟩, ⟨1, 0, 1⟩, ⟨1, 1, 2⟩, ⟨2, 0, 3⟩, ⟨2, 1, 2⟩]

/-! Helper lemmas about sums over `List.range` and about flattened
groups. -/

lemma sum_map_range_succ (f : Nat → Nat) (n : Nat) :
    ((List.range (n + 1)).map f).sum = ((List.range n).map f).sum + f n := by
  rw [List.range_succ, List.map_append, List.sum_append]
  simp

lemma sum_map_range_mono (f : Nat → Nat) {i j : Nat} (h : i ≤ j) :
    ((List.range i).map f).sum ≤ ((List.range j).map f).sum := by
  induction j, h using Nat.le_induction with
  | base => exact Nat.le_refl _
  | succ n hmn ih =>
      rw [sum_map_range_succ]
      exact Nat.le_trans ih (Nat.le_add_right _ _)

lemma sum_map_add (f g : Nat → Nat) (l : List Nat) :
    (l.map fun j => f j + g j).sum = (l.map f).sum + (l.map g).sum := by
  induction l with
  | nil => simp
  | cons a l ih => simp [ih]; omega

lemma sum_indicator_range (c : Int) (dim : Nat) :
    ((List.range dim).map fun (j : Nat) => if c = (j : Int) then 1 else 0).sum
      = if 0 ≤ c ∧ c < (dim : Int) then 1 else 0 := by
  induction dim with
  | zero =>
      simp only [List.range_zero, List.map_nil, List.sum_nil]
      have h : ¬(0 ≤ c ∧ c < ((0 : Nat) : Int)) := by push_cast; omega
      rw [if_neg h]
  | succ n ih =>
      rw [sum_map_range_succ, ih]
      split_ifs <;> push_cast at * <;> omega

lemma axisEntries_cons {α : Type} (colMajor : Bool) (t : Nonzero α)
    (rest : List (Nonzero α)) (j : Nat) :
    axisEntries colMajor (t :: rest) j =
      if t.compressed colMajor = (j : Int) then t :: axisEntries colMajor rest j
      else axisEntries colMajor rest j := by
  simp only [axisEntries, List.filter_cons, beq_iff_eq]

lemma sum_axisEntries_length {α : Type} (colMajor : Bool) (dim : Nat)
    (nz : List (Nonzero α))
    (hgood : ∀ t ∈ nz, 0 ≤ t.compressed colMajor ∧ t.compressed colMajor < (dim : Int)) :
    ((List.range dim).map fun j => (axisEntries colMajor nz j).length).sum = nz.length := by
  induction nz with
  | nil => simp [axisEntries]
  | cons t rest ih =>
      have h1 := hgood t (List.mem_cons_self t rest)
      have hcongr : (List.range dim).map (fun j => (axisEntries colMajor (t :: rest) j).length)
          = (List.range dim).map
            (fun (j : Nat) => (if t.compressed colMajor = (j : Int) then 1 else 0)
              + (axisEntries colMajor rest j).length) := by
        apply List.map_congr_left
        intro j _
        rw [axisEntries_cons]
        split_ifs <;> simp [Nat.add_comm]
      rw [hcongr, sum_map_add, sum_indicator_range,
        ih (fun u hu => hgood u (List.mem_cons_of_mem t hu)), if_pos h1]
      simp [Nat.add_comm]

lemma flatten_chunk {β : Type} (L : List (List β)) (i : Nat) (c : List β)
    (hc : L[i]? = some c) :
    (L.flatten.drop (((L.take i).map List.length).sum)).take c.length = c := by
  induction L generalizing i with
  | nil => simp at hc
  | cons a L ih =>
      cases i with
      | zero =>
          simp at hc
          subst hc
          simp [List.take_left]

      | succ n =>
          simp only [List.getElem?_cons_succ] at hc
          have := ih n hc
          simp only [List.take_succ_cons, List.map_cons, List.sum_cons, List.flatten_cons]
          rw [List.drop_append]
          exact this

lemma range_map_getElem? {β : Type} (f : Nat → β) {dim i : Nat} (hi : i < dim) :
    ((List.range dim).map f)[i]? = some (f i) := by
  rw [List.getElem?_map, List.getElem?_range hi]
  rfl

/-- An engine whose `Highs_run` reports a warning while holding a nonempty
column solution. -/
def engineWarn : Engine Int :=
  { runStatus := kHighsStatusWarning, modelStatus := kHighsModelStatusOptimal,
    numCol := 1, numRow := 1, getSolutionStatus := kHighsStatusOk,
    colValue := [25], colDual := [0], rowValue := [7], rowDual := [0] }

/-- An engine whose `Highs_run` succeeds on a model with zero columns. -/
def engineEmptyCols : Engine Int :=
  { runStatus := kHighsStatusOk, modelStatus := kHighsModelStatusOptimal,
    numCol := 0, numRow := 2, getSolutionStatus := kHighsStatusOk,
    colValue := [], colDual := [], rowValue := [3, 4], rowDual := [0, 0] }

/-- C5 (code bug): the string returned by `HighsStatus.Error` does not
contain the name of the failing HiGHS function.  The source returns the raw
format template — its `%s` verb is never filled in with `CName`, the
`fmt.Sprintf` call being missing — although the `CName` field is documented
as the name of the HiGHS function that returned the non-Ok status.
Evaluated at the failing input
`HighsStatus{Status: kHighsStatusError, CName: "Highs_run", GoName: "Solve"}`:
the rendered string is the template itself and `Highs_run` is not a
substring of it. -/
theorem highsStatus_error_string_lacks_cname :
    HighsStatus.Error { Status := kHighsStatusError, CName := "Highs_run", GoName := "Solve" }
        = "%s failed with an error"
    ∧ ¬ (("Highs_run").toList <:+: ("%s failed with an error").toList) :=
  ⟨rfl, by decide⟩

/-- C7: `convertHighsModelStatus` sends every raw termination-status code
outside the mapped set to the catch-all `Other` — and in particular never
to `Optimal`. -/
theorem convertHighsModelStatus_unmapped_to_other (st : Int)
    (h : st ≠ kHighsModelStatusOptimal ∧ st ≠ kHighsModelStatusInfeasible ∧
      st ≠ kHighsModelStatusUnbounded) :
    convertHighsModelStatus st = ModelStatus.Other
    ∧ convertHighsModelStatus st ≠ ModelStatus.Optimal := by
  have hother : convertHighsModelStatus st = ModelStatus.Other := by
    simp [convertHighsModelStatus, h.1, h.2.1, h.2.2]
  exact ⟨hother, by rw [hother]; simp⟩

/-- Witness for C7 at the concrete unmapped code 13 (the engine's
time-limit status). -/
theorem convertHighsModelStatus_unmapped_to_other_witness :
    convertHighsModelStatus 13 = ModelStatus.Other
    ∧ convertHighsModelStatus 13 ≠ ModelStatus.Optimal :=
  convertHighsModelStatus_unmapped_to_other 13 ⟨by decide, by decide, by decide⟩

/-- C8: `convertSlice` returns a slice of the same length whose i-th
element is the converted i-th input element; when source and destination
are the same floating-point width the Go element conversion is the
identity on the value, and then every element is preserved exactly, with
no rounding. -/
theorem convertSlice_elementwise_exact {F T : Type} (cast : F → T) (xs : List F) :
    (convertSlice cast xs).length = xs.length
    ∧ (∀ i : Nat, (convertSlice cast xs)[i]? = (xs[i]?).map cast)
    ∧ convertSlice (fun a : F => a) xs = xs := by
  refine ⟨by simp [convertSlice], fun i => ?_, by simp [convertSlice]⟩
  simp [convertSlice, List.getElem?_map]

/-- C10: `newHighsStatus` returns nil exactly when the status is
`kHighsStatusOk`; otherwise the returned `HighsStatus` carries that code
and both names, and its `IsWarning` is true exactly when the code is
`kHighsStatusWarning`. -/
theorem newHighsStatus_spec (st : Int) (hName gName : String) :
    (newHighsStatus st hName gName = none ↔ st = kHighsStatusOk)
    ∧ (∀ e : HighsStatus, newHighsStatus st hName gName = some e →
        e.Status = st ∧ e.CName = hName ∧ e.GoName = gName
          ∧ (e.IsWarning = true ↔ st = kHighsStatusWarning)) := by
  constructor
  · unfold newHighsStatus
    split_ifs with h <;> simp [h]
  · intro e he
    unfold newHighsStatus at he
    split_ifs at he with h
    rw [← Option.some.inj he]
    exact ⟨rfl, rfl, rfl, by simp [HighsStatus.IsWarning]⟩

/-- Witness for C10 at the Warning code with the names of the run call. -/
theorem newHighsStatus_spec_witness :
    (⟨kHighsStatusWarning, "Highs_run", "Solve"⟩ : HighsStatus).IsWarning = true :=
  (((newHighsStatus_spec kHighsStatusWarning ("Highs_run") ("Solve")).2
      ⟨kHighsStatusWarning, "Highs_run", "Solve"⟩ rfl).2.2.2).mpr rfl

/-- C6: every option accessor returns nil exactly when the engine's status
code is Ok; the Warning and Error codes produce distinct non-nil errors,
collapsed neither into each other nor into success; and by the Ok-iff any
code outside the known three-valued set also yields a non-nil error, never
success.  The float64 slots are instantiated at the opaque value type
`Int`. -/
theorem option_accessors_status_classification (st : Int) (opt : String) (b : Bool)
    (n : Int) (f : Int) (s : String) (rb ri : Int) (rf : Int) (rs : String) :
    ((RawModel.SetBoolOption st opt b = none) ↔ st = kHighsStatusOk)
    ∧ RawModel.SetBoolOption kHighsStatusWarning opt b ≠ none
    ∧ RawModel.SetBoolOption kHighsStatusError opt b ≠ none
    ∧ RawModel.SetBoolOption kHighsStatusWarning opt b
        ≠ RawModel.SetBoolOption kHighsStatusError opt b
    ∧ ((RawModel.SetIntOption st opt n = none) ↔ st = kHighsStatusOk)
    ∧ RawModel.SetIntOption kHighsStatusWarning opt n ≠ none
    ∧ RawModel.SetIntOption kHighsStatusError opt n ≠ none
    ∧ RawModel.SetIntOption kHighsStatusWarning opt n
        ≠ RawModel.SetIntOption kHighsStatusError opt n
    ∧ ((RawModel.SetFloat64Option st opt f = none) ↔ st = kHighsStatusOk)
    ∧ RawModel.SetFloat64Option kHighsStatusWarning opt f ≠ none
    ∧ RawModel.SetFloat64Option kHighsStatusError opt f ≠ none
    ∧ RawModel.SetFloat64Option kHighsStatusWarning opt f
        ≠ RawModel.SetFloat64Option kHighsStatusError opt f
    ∧ ((RawModel.SetStringOption st opt s = none) ↔ st = kHighsStatusOk)
    ∧ RawModel.SetStringOption kHighsStatusWarning opt s ≠ none
    ∧ RawModel.SetStringOption kHighsStatusError opt s ≠ none
    ∧ RawModel.SetStringOption kHighsStatusWarning opt s
        ≠ RawModel.SetStringOption kHighsStatusError opt s
    ∧ (((RawModel.GetBoolOption st opt rb).2 = none) ↔ st = kHighsStatusOk)
    ∧ (RawModel.GetBoolOption kHighsStatusWarning opt rb).2 ≠ none
    ∧ (RawModel.GetBoolOption kHighsStatusError opt rb).2 ≠ none
    ∧ (RawModel.GetBoolOption kHighsStatusWarning opt rb).2
        ≠ (RawModel.GetBoolOption kHighsStatusError opt rb).2
    ∧ (((RawModel.GetIntOption st opt ri).2 = none) ↔ st = kHighsStatusOk)
    ∧ (RawModel.GetIntOption kHighsStatusWarning opt ri).2 ≠ none
    ∧ (RawModel.GetIntOption kHighsStatusError opt ri).2 ≠ none
    ∧ (RawModel.GetIntOption kHighsStatusWarning opt ri).2
        ≠ (RawModel.GetIntOption kHighsStatusError opt ri).2
    ∧ (((RawModel.GetFloat64Option st opt rf).2 = none) ↔ st = kHighsStatusOk)
    ∧ (RawModel.GetFloat64Option kHighsStatusWarning opt rf).2 ≠ none
    ∧ (RawModel.GetFloat64Option kHighsStatusError opt rf).2 ≠ none
    ∧ (RawModel.GetFloat64Option kHighsStatusWarning opt rf).2
        ≠ (RawModel.GetFloat64Option kHighsStatusError opt rf).2
    ∧ (((RawModel.GetStringOption st opt rs).2 = none) ↔ st = kHighsStatusOk)
    ∧ (RawModel.GetStringOption kHighsStatusWarning opt rs).2 ≠ none
    ∧ (RawModel.GetStringOption kHighsStatusError opt rs).2 ≠ none
    ∧ (RawModel.GetStringOption kHighsStatusWarning opt rs).2
        ≠ (RawModel.GetStringOption kHighsStatusError opt rs).2 := by
  refine ⟨?_, ?_, ?_, ?_, ?_, ?_, ?_, ?_, ?_, ?_, ?_, ?_, ?_, ?_, ?_, ?_,
    ?_, ?_, ?_, ?_, ?_, ?_, ?_, ?_, ?_, ?_, ?_, ?_, ?_, ?_, ?_, ?_⟩
  all_goals
    simp only [RawModel.SetBoolOption, RawModel.SetIntOption, RawModel.SetFloat64Option,
      RawModel.SetStringOption, RawModel.GetBoolOption, RawModel.GetIntOption,
      RawModel.GetFloat64Option, RawModel.GetStringOption, kHighsStatusOk,
      kHighsStatusError, kHighsStatusWarning]
  all_goals first
    | decide
    | (split_ifs <;> simp_all)

/-- C4 counterexample: when `Highs_run` returns Warning, the source returns
the zero-value `&RawSolution{}` together with the error — nothing is
partially populated.  Here the engine holds the nonempty column solution
`[25]`, yet the returned solution's `ColumnPrimal` is empty: there are no
results produced under relaxed tolerances for the caller to inspect. -/
theorem solve_warning_empty_cex :
    RawModel.Solve engineWarn
        = SolveOutcome.returns emptyRawSolution (some ("model failed with a warning"))
    ∧ (emptyRawSolution : RawSolution Int).ColumnPrimal = []
    ∧ engineWarn.colValue = [25]
    ∧ (emptyRawSolution : RawSolution Int).ColumnPrimal ≠ engineWarn.colValue := by
  refine ⟨by decide, rfl, rfl, by decide⟩

/-- C4 (amended): when the engine's run entry point returns a Warning
status, `RawModel.Solve` returns a non-nil but completely empty
(zero-value) Solution together with a non-nil error; no solution data is
retrieved from the engine on this path. -/
theorem solve_warning_returns_empty_and_error {α : Type} [Inhabited α] (e : Engine α)
    (h : e.runStatus = kHighsStatusWarning) :
    RawModel.Solve e
      = SolveOutcome.returns emptyRawSolution (some ("model failed with a warning")) := by
  unfold RawModel.Solve
  rw [h]
  simp [kHighsStatusWarning, kHighsStatusOk]

/-- Witness for C4's amended theorem at the concrete warning engine. -/
theorem solve_warning_returns_empty_and_error_witness :
    RawModel.Solve engineWarn
      = SolveOutcome.returns emptyRawSolution (some ("model failed with a warning")) :=
  solve_warning_returns_empty_and_error engineWarn rfl

/-- C9: after a successful run, `Solve` falls over exactly on the empty
dimensions: with zero columns or zero rows the `&colValue[0]` or
`&rowValue[0]` indexing of an empty output buffer panics instead of
returning a solution or an error, and with both counts positive no panic
happens. -/
theorem solve_empty_dims_panic {α : Type} [Inhabited α] (e : Engine α)
    (hrun : e.runStatus = kHighsStatusOk) :
    ((e.numCol = 0 ∨ e.numRow = 0) → RawModel.Solve e = SolveOutcome.panics)
    ∧ (0 < e.numCol → 0 < e.numRow → RawModel.Solve e ≠ SolveOutcome.panics) := by
  constructor
  · intro hz
    unfold RawModel.Solve
    rw [hrun]
    simp [hz]
  · intro hc hr
    unfold RawModel.Solve
    rw [hrun]
    have hz : ¬(e.numCol = 0 ∨ e.numRow = 0) := by omega
    rw [if_pos rfl, if_neg hz]
    split_ifs <;> simp

/-- Witness for C9 at a concrete engine with a successful run and zero
columns. -/
theorem solve_empty_dims_panic_witness :
    RawModel.Solve engineEmptyCols = SolveOutcome.panics :=
  (solve_empty_dims_panic engineEmptyCols rfl).1 (Or.inl rfl)

/-! Structural lemmas about the converter. -/

lemma not_badIndex {α : Type} {colMajor : Bool} {dim : Nat} {t : Nonzero α}
    (h : ¬ badIndex colMajor dim t = true) :
    0 ≤ t.compressed colMajor ∧ t.compressed colMajor < (dim : Int) := by
  unfold badIndex at h
  simp only [Bool.or_eq_true, decide_eq_true_eq, not_or] at h
  refine ⟨?_, not_le.mp h.2⟩
  unfold Nonzero.compressed
  split_ifs
  · exact not_lt.mp h.1.2
  · exact not_lt.mp h.1.1

lemma nonzerosToCSR_ok {α : Type} {nz : List (Nonzero α)} {colMajor : Bool} {dim : Nat}
    {start : List Nat} {index : List Int} {value : List α}
    (h : nonzerosToCSR nz colMajor dim = Except.ok (start, index, value)) :
    (∀ t ∈ nz, 0 ≤ t.compressed colMajor ∧ t.compressed colMajor < (dim : Int))
    ∧ start = ((List.range dim).map fun i =>
        ((List.range i).map fun j => (axisEntries colMajor nz j).length).sum)
    ∧ index = ((List.range dim).map fun i =>
        (axisEntries colMajor nz i).map fun t => t.free colMajor).flatten
    ∧ value = ((List.range dim).map fun i =>
        (axisEntries colMajor nz i).map fun t => t.value).flatten := by
  unfold nonzerosToCSR at h
  split_ifs at h with hb
  have h4 := Except.ok.inj h
  simp only [Prod.mk.injEq] at h4
  refine ⟨?_, h4.1.symm, h4.2.1.symm, h4.2.2.symm⟩
  intro t ht
  refine not_badIndex (fun hcontra => ?_)
  rw [List.any_eq_true] at hb
  exact hb ⟨t, ht, hcontra⟩

lemma range_map_getElem?_inv {β : Type} {f : Nat → β} {dim i : Nat} {a : β}
    (h : ((List.range dim).map f)[i]? = some a) : i < dim ∧ a = f i := by
  by_cases hi : i < dim
  · rw [range_map_getElem? f hi] at h
    exact ⟨hi, (Option.some.inj h).symm⟩
  · rw [List.getElem?_eq_none (by simp; omega)] at h
    exact absurd h (by simp)

lemma flatten_range_chunk {β : Type} (f : Nat → List β) {dim i : Nat} (hi : i < dim) :
    ((((List.range dim).map f).flatten).drop
        (((List.range i).map fun j => (f j).length).sum)).take (f i).length = f i := by
  have h2 := flatten_chunk ((List.range dim).map f) i (f i) (range_map_getElem? f hi)
  rw [← List.map_take, List.take_range, Nat.min_eq_left (Nat.le_of_lt hi),
    List.map_map] at h2
  exact h2

/-- C1 counterexample: at the input of the repository's own
`TestMakeSparseMatrix` — five triples over three rows, row-compressed,
dimension 3 — the converter produces a `start` array of length 3, the
dimension itself, not `dimension + 1`; consequently there is also no
`start[dimension]` entry holding the triple count. -/
theorem nonzerosToCSR_start_length_cex :
    nonzerosToCSR testNonzeros false 3
        = Except.ok ([0, 1, 3], [1, 0, 1, 0, 1], [1, 1, 2, 3, 2])
    ∧ ([0, 1, 3] : List Nat).length ≠ 3 + 1 :=
  ⟨rfl, by decide⟩

/-- C1 (amended): whenever the converter succeeds, `start` has length
`dimension` — the final offset is omitted — with `start[0] = 0` when the
dimension is positive, `start` monotonically non-decreasing, every offset
at most the number of triples, and `index` and `value` of length exactly
`len(triples)`, the value the claim expects in the omitted
`start[dimension]` slot. -/
theorem nonzerosToCSR_start_spec {α : Type} (nz : List (Nonzero α)) (colMajor : Bool)
    (dim : Nat) (start : List Nat) (index : List Int) (value : List α)
    (h : nonzerosToCSR nz colMajor dim = Except.ok (start, index, value)) :
    start.length = dim
    ∧ (0 < dim → start[0]? = some 0)
    ∧ (∀ i j : Nat, i ≤ j → ∀ a b : Nat, start[i]? = some a → start[j]? = some b → a ≤ b)
    ∧ (∀ i a : Nat, start[i]? = some a → a ≤ nz.length)
    ∧ index.length = nz.length
    ∧ value.length = nz.length := by
  obtain ⟨hgood, hs, hidx, hval⟩ := nonzerosToCSR_ok h
  subst hs
  subst hidx
  subst hval
  have hsum := sum_axisEntries_length colMajor dim nz hgood
  refine ⟨by simp, ?_, ?_, ?_, ?_, ?_⟩
  · intro hd
    rw [range_map_getElem? _ hd]
    simp
  · intro i j hij a b ha hb
    obtain ⟨hi2, rfl⟩ := range_map_getElem?_inv ha
    obtain ⟨hj2, rfl⟩ := range_map_getElem?_inv hb
    exact sum_map_range_mono _ hij
  · intro i a ha
    obtain ⟨hi2, rfl⟩ := range_map_getElem?_inv ha
    calc ((List.range i).map fun j => (axisEntries colMajor nz j).length).sum
        ≤ ((List.range dim).map fun j => (axisEntries colMajor nz j).length).sum :=
          sum_map_range_mono _ (Nat.le_of_lt hi2)
      _ = nz.length := hsum
  · rw [List.length_flatten, List.map_map]
    have hcmp : (List.map
          (List.length ∘ fun i => (axisEntries colMajor nz i).map fun t => t.free colMajor)
          (List.range dim))
        = List.map (fun j => (axisEntries colMajor nz j).length) (List.range dim) := by
      apply List.map_congr_left
      intro j _
      simp
    rw [hcmp]
    exact hsum
  · rw [List.length_flatten, List.map_map]
    have hcmp : (List.map
          (List.length ∘ fun i => (axisEntries colMajor nz i).map fun t => t.value)
          (List.range dim))
        = List.map (fun j => (axisEntries colMajor nz j).length) (List.range dim) := by
      apply List.map_congr_left
      intro j _
      simp
    rw [hcmp]
    exact hsum

/-- Witness for C1's amended theorem at the test input of
`TestMakeSparseMatrix`. -/
theorem nonzerosToCSR_start_spec_witness :
    ([0, 1, 3] : List Nat).length = 3
    ∧ (0 < 3 → ([0, 1, 3] : List Nat)[0]? = some 0)
    ∧ (∀ i j : Nat, i ≤ j → ∀ a b : Nat, ([0, 1, 3] : List Nat)[i]? = some a →
        ([0, 1, 3] : List Nat)[j]? = some b → a ≤ b)
    ∧ (∀ i a : Nat, ([0, 1, 3] : List Nat)[i]? = some a → a ≤ testNonzeros.length)
    ∧ ([1, 0, 1, 0, 1] : List Int).length = testNonzeros.length
    ∧ ([1, 1, 2, 3, 2] : List Int).length = testNonzeros.length :=
  nonzerosToCSR_start_spec testNonzeros false 3 [0, 1, 3] [1, 0, 1, 0, 1] [1, 1, 2, 3, 2]
    rfl

/-- C2 counterexample: the claim reads row `i` back as
`index[start[i] : start[i+1]]`, which for the last row dereferences
`start[dimension]`; at the repository's own test input the produced
`start = [0, 1, 3]` has no entry at position 3 — the converter omits the
final offset — so the claimed read-back of the last row is not even
well-formed on the actual output. -/
theorem nonzerosToCSR_roundtrip_cex :
    nonzerosToCSR testNonzeros false 3
        = Except.ok ([0, 1, 3], [1, 0, 1, 0, 1], [1, 1, 2, 3, 2])
    ∧ ([0, 1, 3] : List Nat)[3]? = none :=
  ⟨rfl, rfl⟩

/-- C2 (amended): with the omitted final offset `start[dimension]` taken to
be the number of triples (the `boundary` convention), reading each segment
`index[start[i] : start[i+1]]` with `value[start[i] : start[i+1]]` back
from a successful conversion reproduces exactly the free-axis indices and
values of the triples supplied for compressed index `i`, in the order the
triples were supplied — stable grouping, with no sorting beyond grouping by
the compressed axis. -/
theorem nonzerosToCSR_roundtrip {α : Type} (nz : List (Nonzero α)) (colMajor : Bool)
    (dim : Nat) (start : List Nat) (index : List Int) (value : List α)
    (h : nonzerosToCSR nz colMajor dim = Except.ok (start, index, value))
    (i : Nat) (hi : i < dim) :
    (index.drop (boundary start nz.length i)).take
        (boundary start nz.length (i + 1) - boundary start nz.length i)
      = (axisEntries colMajor nz i).map (fun t => t.free colMajor)
    ∧ (value.drop (boundary start nz.length i)).take
        (boundary start nz.length (i + 1) - boundary start nz.length i)
      = (axisEntries colMajor nz i).map (fun t => t.value) := by
  obtain ⟨hgood, hs, hidx, hval⟩ := nonzerosToCSR_ok h
  subst hs
  subst hidx
  subst hval
  have hbound : ∀ k, k ≤ dim →
      boundary ((List.range dim).map fun i2 =>
        ((List.range i2).map fun j => (axisEntries colMajor nz j).length).sum) nz.length k
      = ((List.range k).map fun j => (axisEntries colMajor nz j).length).sum := by
    intro k hk
    by_cases hk2 : k < dim
    · unfold boundary
      rw [range_map_getElem? _ hk2]
      rfl
    · have hk3 : k = dim := by omega
      rw [hk3]
      unfold boundary
      rw [List.getElem?_eq_none (by simp)]
      rw [sum_axisEntries_length colMajor dim nz hgood]
      rfl
  rw [hbound i (Nat.le_of_lt hi), hbound (i + 1) hi]
  have hdiff : ((List.range (i + 1)).map fun j => (axisEntries colMajor nz j).length).sum
      - ((List.range i).map fun j => (axisEntries colMajor nz j).length).sum
      = (axisEntries colMajor nz i).length := by
    rw [sum_map_range_succ]
    omega
  rw [hdiff]
  constructor
  · have hchunk := flatten_range_chunk
      (fun i2 => (axisEntries colMajor nz i2).map fun t => t.free colMajor) hi
    simp only [List.length_map] at hchunk
    exact hchunk
  · have hchunk := flatten_range_chunk
      (fun i2 => (axisEntries colMajor nz i2).map fun t => t.value) hi
    simp only [List.length_map] at hchunk
    exact hchunk

/-- Witness for C2's amended theorem: the middle row of the test input of
`TestMakeSparseMatrix` reads back as columns `[0, 1]` with values
`[1, 2]`. -/
theorem nonzerosToCSR_roundtrip_witness :
    (([1, 0, 1, 0, 1] : List Int).drop (boundary [0, 1, 3] testNonzeros.length 1)).take
        (boundary [0, 1, 3] testNonzeros.length 2 - boundary [0, 1, 3] testNonzeros.length 1)
      = (axisEntries false testNonzeros 1).map (fun t => t.free false)
    ∧ (([1, 1, 2, 3, 2] : List Int).drop (boundary [0, 1, 3] testNonzeros.length 1)).take
        (boundary [0, 1, 3] testNonzeros.length 2 - boundary [0, 1, 3] testNonzeros.length 1)
      = (axisEntries false testNonzeros 1).map (fun t => t.value) :=
  nonzerosToCSR_roundtrip testNonzeros false 3 [0, 1, 3] [1, 0, 1, 0, 1] [1, 1, 2, 3, 2]
    rfl 1 (by decide)

/-- C3: a triple list containing a negative row or column index, or a
compressed-axis index at or beyond the declared dimension, makes the
conversion fail with a StructuralError, and the adapter performs no engine
call: the error is produced before any engine interaction. -/
theorem nonzerosToCSR_bad_index_errors {α : Type} (nz : List (Nonzero α)) (colMajor : Bool)
    (dim : Nat)
    (hbad : ∃ t ∈ nz, t.row < 0 ∨ t.col < 0 ∨ (dim : Int) ≤ t.compressed colMajor) :
    nonzerosToCSR nz colMajor dim = Except.error { msg := "matrix index out of range" }
    ∧ (ToRawModel nz colMajor dim).2 = [] := by
  have hany : nz.any (badIndex colMajor dim) = true := by
    rw [List.any_eq_true]
    obtain ⟨t, ht, hc⟩ := hbad
    refine ⟨t, ht, ?_⟩
    unfold badIndex
    simp only [Bool.or_eq_true, decide_eq_true_eq]
    tauto
  constructor
  · simp [nonzerosToCSR, hany]
  · simp [ToRawModel, nonzerosToCSR, hany]

/-- Witness for C3 at a one-triple list with a negative row index. -/
theorem nonzerosToCSR_bad_index_errors_witness :
    nonzerosToCSR [(⟨-1, 0, 0⟩ : Nonzero Int)] false 2
        = Except.error { msg := "matrix index out of range" }
    ∧ (ToRawModel [(⟨-1, 0, 0⟩ : Nonzero Int)] false 2).2 = [] :=
  nonzerosToCSR_bad_index_errors _ false 2 ⟨⟨-1, 0, 0⟩, by simp, Or.inl (by decide)⟩

end Highs
